import Mathlib

/-!
A shallow embedding of the program in src/run_clang_format.py, a helper
script that checks the version of an external clang-format binary, discovers
.c and .h files under the given path arguments, and invokes clang-format on
them.  Pure fragments of the script become Lean functions; the interactions
with the operating system (child processes, the file system) are abstracted
into an environment record, and the script's single pass through main
becomes a function from that environment to a run result (printed lines,
final outcome, and the formatter invocation, if any).
-/

namespace ClangFmt

/-- The Version dataclass (order=True): an ordered triple of naturals. -/
structure Version where
  major : Nat
  minor : Nat
  patch : Nat
deriving DecidableEq

/-- Version.__repr__: "major.minor.patch". -/
def verStr (v : Version) : String :=
  toString v.major ++ "." ++ toString v.minor ++ "." ++ toString v.patch

/-- The required minimum version constant CLANG_FORMAT_VER_REQ = Version(13, 0, 1). -/
def CLANG_FORMAT_VER_REQ : Version := ⟨13, 0, 1⟩

/-- The comparison generated by dataclass(order=True): Python compares the
tuples (major, minor, patch) field by field, deciding at the first field
where the two differ. -/
def Version.lt (v w : Version) : Bool :=
  if v.major ≠ w.major then decide (v.major < w.major)
  else if v.minor ≠ w.minor then decide (v.minor < w.minor)
  else decide (v.patch < w.patch)

/-! ### The version regex

CLANG_FORMAT_VER_REGEX is the Python pattern
  clang-format version (?P<major>\d+).(?P<minor>\d+).(?P<patch>\d+)
Note that the three separating dots are not escaped, so each of them matches
any single character other than a newline.  The functions below implement
re.search for exactly this pattern with Python's leftmost, greedy,
backtracking semantics: the scan tries match start positions left to right;
at a given start, each \d+ first consumes the maximal run of digits and
gives characters back one at a time when the remainder of the pattern
cannot match. -/

/-- int() on a string of decimal digits. -/
def toNatDigits (l : List Char) : Nat :=
  l.foldl (fun n c => 10 * n + (c.toNat - 48)) 0

/-- Match (?P<patch>\d+) at the front of l: the final \d+ is greedy and
nothing follows it, so it simply takes the maximal digit run. -/
def matchPatch (l : List Char) : Option Nat :=
  let d := l.takeWhile Char.isDigit
  if d = [] then none else some (toNatDigits d)

/-- Backtracking over the length of the minor group: ds is the maximal digit
run available to (?P<minor>\d+) and rest what follows it; k counts the
candidate lengths still to try, longest first.  After the minor group the
unescaped dot must consume one non-newline character, then the patch group
must match. -/
def tryMinors : Nat → List Char → List Char → Option (Nat × Nat)
  | 0, _, _ => none
  | k + 1, ds, rest =>
    match ds.drop (k + 1) ++ rest with
    | c :: u =>
      if c ≠ '\n' then
        match matchPatch u with
        | some p => some (toNatDigits (ds.take (k + 1)), p)
        | none => tryMinors k ds rest
      else tryMinors k ds rest
    | [] => tryMinors k ds rest

/-- Match (?P<minor>\d+).(?P<patch>\d+) at the front of l. -/
def matchMinor (l : List Char) : Option (Nat × Nat) :=
  tryMinors (l.takeWhile Char.isDigit).length (l.takeWhile Char.isDigit)
    (l.dropWhile Char.isDigit)

/-- Backtracking over the length of the major group, as in tryMinors. -/
def tryMajors : Nat → List Char → List Char → Option (Nat × Nat × Nat)
  | 0, _, _ => none
  | k + 1, ds, rest =>
    match ds.drop (k + 1) ++ rest with
    | c :: u =>
      if c ≠ '\n' then
        match matchMinor u with
        | some mp => some (toNatDigits (ds.take (k + 1)), mp.1, mp.2)
        | none => tryMajors k ds rest
      else tryMajors k ds rest
    | [] => tryMajors k ds rest

/-- Match (?P<major>\d+).(?P<minor>\d+).(?P<patch>\d+) at the front of l. -/
def matchTriple (l : List Char) : Option (Nat × Nat × Nat) :=
  tryMajors (l.takeWhile Char.isDigit).length (l.takeWhile Char.isDigit)
    (l.dropWhile Char.isDigit)

/-- The literal part of the pattern, including the trailing space. -/
def verLit : List Char := "clang-format version ".data

/-- Match a literal: returns the remainder of l after p when p heads l. -/
def dropLit : List Char → List Char → Option (List Char)
  | [], l => some l
  | _ :: _, [] => none
  | p :: ps, c :: cs => if c = p then dropLit ps cs else none

/-- re.search: scan match start positions left to right; at each, require
the literal then the three groups. -/
def regexSearchFrom : List Char → Option (Nat × Nat × Nat)
  | [] => none
  | c :: t =>
    match dropLit verLit (c :: t) with
    | some r =>
      match matchTriple r with
      | some v => some v
      | none => regexSearchFrom t
    | none => regexSearchFrom t

/-- CLANG_FORMAT_VER_REGEX.search on the decoded stdout, followed by the
construction Version(int(major), int(minor), int(patch)); none models a
failed search (the assert in main fires). -/
def parseVer (s : String) : Option Version :=
  (regexSearchFrom s.data).map (fun t => ⟨t.1, t.2.1, t.2.2⟩)

/-! ### The file system abstraction

The script inspects paths only through pathlib: Path.exists / is_dir /
is_file, Path.glob("**/*.c") and ("**/*.h"), and Path.resolve.  The record
below is the interface the run sees.  A glob such as "**/*.c" returns, in
unspecified order, the entries anywhere beneath a directory whose name ends
in ".c"; kind classifies each path string as the pathlib predicates would. -/

/-- What a path argument resolves to. -/
inductive PathKind where
  | file
  | dir
  | other
  | missing
deriving DecidableEq

/-- The file-system view used by the script. entriesUnder d lists the paths
beneath directory d that a recursive glob traverses (in file-system order);
resolve models Path.resolve. -/
structure FS where
  kind : String → PathKind
  entriesUnder : String → List String
  resolve : String → String

/-- Whether string s ends with string t (the "*.c" / "*.h" glob test). -/
def strEndsWith (s t : String) : Bool :=
  if t.data.length ≤ s.data.length then
    decide (s.data.drop (s.data.length - t.data.length) = t.data)
  else false

/-- Lexicographic comparison of character lists by code point, the order
Python uses on strings (and, on the path strings at hand, on Path values). -/
def listLe : List Char → List Char → Bool
  | [], _ => true
  | _ :: _, [] => false
  | a :: as, b :: bs =>
    if a.toNat < b.toNat then true
    else if b.toNat < a.toNat then false
    else listLe as bs

/-- String comparison via listLe. -/
def strLe (s t : String) : Bool := listLe s.data t.data

/-- Insertion sort by string order: the model of Python sorted() on the
paths a glob returned. -/
def sortStr (l : List String) : List String :=
  List.insertionSort (fun a b : String => strLe a b = true) l

/-- sorted(path.glob("**/*" + ext)) for a directory p. -/
def globSorted (fs : FS) (p : String) (ext : String) : List String :=
  sortStr ((fs.entriesUnder p).filter (fun q => strEndsWith q ext))

/-- The warning printed for an argument that is neither file nor directory:
print(colored("WARN:", "yellow"), f"...") joins its arguments with a space
(colors are not modelled). -/
def warnLine (p : String) : String :=
  "WARN: " ++ p ++ " doesn\x27t exist or is not file or dir, ignoring"

/-- What one iteration of the discovery loop appends to globbed_files. -/
def contribution (fs : FS) (p : String) : List String :=
  match fs.kind p with
  | PathKind.missing => []
  | PathKind.other => []
  | PathKind.dir => globSorted fs p ".c" ++ globSorted fs p ".h"
  | PathKind.file => [p]

/-- What one iteration of the discovery loop prints. -/
def pathWarnings (fs : FS) (p : String) : List String :=
  match fs.kind p with
  | PathKind.missing => [warnLine p]
  | PathKind.other => [warnLine p]
  | PathKind.dir => []
  | PathKind.file => []

/-- Concatenation of a list of lists (the loop's repeated extend/append). -/
def catLists : List (List String) → List String
  | [] => []
  | l :: ls => l ++ catLists ls

/-- globbed_files after the loop over args.path. -/
def discoverFiles (fs : FS) (args : List String) : List String :=
  catLists (args.map (contribution fs))

/-- The warnings printed by the loop over args.path, in argument order. -/
def discoverWarnings (fs : FS) (args : List String) : List String :=
  catLists (args.map (pathWarnings fs))

/-! ### Command construction: " ".join then str.split() -/

/-- Python whitespace as used by str.split() with no argument (ASCII part;
the script never produces other whitespace itself). -/
def isPyWS (c : Char) : Bool :=
  c = ' ' || c = '\t' || c = '\n' || c = '\r' || c = '\x0b' || c = '\x0c'

/-- " ".join(l). -/
def pyJoin : List String → String
  | [] => ""
  | [x] => x
  | x :: xs => x ++ " " ++ pyJoin xs

/-- Worker for str.split() with explicit fuel, so that the recursion is
structural and the function reduces inside the kernel; the fuel only ever
needs to cover the length of the list. -/
def splitWSF : Nat → List Char → List (List Char)
  | 0, _ => []
  | _ + 1, [] => []
  | n + 1, c :: cs =>
    if isPyWS c then splitWSF n cs
    else (c :: cs.takeWhile (fun d => !isPyWS d)) ::
      splitWSF n (cs.dropWhile (fun d => !isPyWS d))

/-- str.split() with no argument: split on runs of whitespace, dropping
empty pieces at either end. -/
def splitWS (l : List Char) : List (List Char) :=
  splitWSF l.length l

/-- str.split() on a Lean string. -/
def pySplit (s : String) : List String :=
  (splitWS s.data).map String.mk

/-- clang_format_cmd.split(): the script joins the resolved paths with
spaces after "clang-format -i --verbose " and then re-splits the single
string on whitespace to get the argument vector for subprocess.run. -/
def buildArgv (resolved : List String) : List String :=
  pySplit ("clang-format -i --verbose " ++ pyJoin resolved)

/-- str.rstrip(): drop trailing whitespace. -/
def rstrip (s : String) : String :=
  String.mk ((s.data.reverse.dropWhile isPyWS).reverse)

/-! ### Child processes and the run itself -/

/-- Outcome of a subprocess.run call with check=True.  startFailure models
an OSError such as FileNotFoundError raised while spawning (this is not a
CalledProcessError and is caught by neither except clause in the script);
exited carries the exit status and the captured, decoded stdout/stderr. -/
inductive ProcResult where
  | startFailure (msg : String)
  | exited (code : Nat) (stdout stderr : String)

/-- The environment of a single run: the parsed positional arguments, the
file-system view, and the behaviour of the two child-process invocations
(the second as a function of the argument vector it is given). -/
structure Env where
  args : List String
  fs : FS
  versionResult : ProcResult
  formatResult : List String → ProcResult

/-- How the run ends: sys.exit(main()) with main's return value, an
AssertionError from a failed assert, or an exception that no handler
catches. -/
inductive RunOutcome where
  | exit (code : Int)
  | assertionFailure (msg : String)
  | uncaughtError (msg : String)
deriving DecidableEq

/-- Observable result of a run: the lines printed to stdout in order
(ANSI colors not modelled), the final outcome, and the argument vector of
the formatter invocation when one was attempted. -/
structure RunResult where
  output : List String
  outcome : RunOutcome
  formatCalled : Option (List String)
deriving DecidableEq

/-- The argv of the version query. -/
def VERSION_CMD : List String := ["clang-format", "--version"]

/-- str(list) as Python renders a list of strings. -/
def pyListStr (l : List String) : String :=
  "[" ++ String.intercalate ", " (l.map (fun s => "\x27" ++ s ++ "\x27")) ++ "]"

/-- str(CalledProcessError): "Command {cmd!r} returned non-zero exit status
{code}." (the script prints this object directly for a failed version
query). -/
def cpErrorStr (cmd : List String) (code : Nat) : String :=
  "Command " ++ "\x27" ++ pyListStr cmd ++ "\x27" ++
    " returned non-zero exit status " ++ toString code ++ "."

/-- "ERROR: clang-format version is too old!". -/
def tooOld1 : String := "ERROR: clang-format version is too old!"

/-- The second too-old line, naming the required and the parsed version. -/
def tooOld2 (v : Version) : String :=
  "       Requires version " ++ verStr CLANG_FORMAT_VER_REQ ++ " but is " ++ verStr v

/-- The acceptance line. -/
def usingLine (v : Version) : String :=
  "Using clang-format version " ++ verStr v

/-- The newer-than-tested note. -/
def noteLine : String :=
  "NOTE: Major version used is greater than tested (" ++
    toString CLANG_FORMAT_VER_REQ.major ++ "), might behave differently."

/-- The script's main(), as a function of the run environment.  It follows
the source line by line: version query (only CalledProcessError is caught),
regex parse guarded by an assert, minimum-version check, newer-major note,
the discovery loop, command construction by join-then-split, and the
formatter invocation (again only CalledProcessError is caught). -/
def main (env : Env) : RunResult :=
  match env.versionResult with
  | ProcResult.startFailure m => ⟨[], RunOutcome.uncaughtError m, none⟩
  | ProcResult.exited code _out _err =>
    if code ≠ 0 then
      ⟨[cpErrorStr VERSION_CMD code], RunOutcome.exit (-1), none⟩
    else
      match parseVer _out with
      | none => ⟨[], RunOutcome.assertionFailure "Incorrect clang-format version output?", none⟩
      | some version =>
        if Version.lt version CLANG_FORMAT_VER_REQ then
          ⟨[tooOld1, tooOld2 version], RunOutcome.exit (-1), none⟩
        else
          let head := usingLine version ::
            (if CLANG_FORMAT_VER_REQ.major < version.major then [noteLine] else [])
          let warns := discoverWarnings env.fs env.args
          let files := discoverFiles env.fs env.args
          let argv := buildArgv (files.map env.fs.resolve)
          match env.formatResult argv with
          | ProcResult.startFailure m =>
            ⟨head ++ warns, RunOutcome.uncaughtError m, some argv⟩
          | ProcResult.exited fcode fout ferr =>
            if fcode ≠ 0 then
              ⟨head ++ warns ++ [ferr], RunOutcome.exit (-1), some argv⟩
            else
              ⟨head ++ warns ++
                  (if fout ≠ "" then [rstrip fout] else []) ++
                  (if ferr ≠ "" then [rstrip ferr] else []),
                RunOutcome.exit 0, some argv⟩

/-! ### Concrete fixtures

Small closed environments used to instantiate the theorems below on
concrete inputs. -/

/-- Words joined by single spaces, at the character level. -/
def joinChars : List (List Char) → List Char
  | [] => []
  | [w] => w
  | w :: ws => w ++ ' ' :: joinChars ws

/-- A file system with no entries at all. -/
def fsEmpty : FS := ⟨fun _ => PathKind.missing, fun _ => [], fun s => s⟩

/-- A file system with one directory "dir" holding b.h, a.c and c.txt. -/
def fsABC : FS :=
  ⟨fun p => if p = "dir" then PathKind.dir else PathKind.missing,
   fun p => if p = "dir" then ["dir/b.h", "dir/a.c", "dir/c.txt"] else [],
   fun s => s⟩

/-- A file system whose only entry is the plain file weird.txt. -/
def fsFile : FS :=
  ⟨fun p => if p = "weird.txt" then PathKind.file else PathKind.missing,
   fun _ => [], fun s => s⟩

/-- A formatter invocation that succeeds silently. -/
def okFormat : List String → ProcResult := fun _ => ProcResult.exited 0 "" ""

/-- Run in which spawning the version query raises an OSError. -/
def envStart : Env :=
  ⟨["src"], fsEmpty,
   ProcResult.startFailure "No such file or directory: clang-format", okFormat⟩

/-- Run in which the version query exits 1 with stderr "boom". -/
def envVFail : Env :=
  ⟨["src"], fsEmpty, ProcResult.exited 1 "" "boom", okFormat⟩

/-- Run in which the version query prints a non-dot-separated variant. -/
def envC2 : Env :=
  ⟨["src"], fsEmpty, ProcResult.exited 0 "clang-format version 14a0b0" "", okFormat⟩

/-- Run in which the reported version is 12.9.9. -/
def envOld : Env :=
  ⟨["src"], fsEmpty, ProcResult.exited 0 "clang-format version 12.9.9" "", okFormat⟩

/-- Run in which the reported version is 14.0.0. -/
def env14 : Env :=
  ⟨["src"], fsEmpty, ProcResult.exited 0 "clang-format version 14.0.0" "", okFormat⟩

/-- Run in which the formatter invocation exits 1 with stderr "fmt boom". -/
def envFmtFail : Env :=
  ⟨["src"], fsEmpty, ProcResult.exited 0 "clang-format version 13.0.1" "",
   fun _ => ProcResult.exited 1 "" "fmt boom"⟩

/-! ### Helper lemmas -/

theorem listLe_total : ∀ a b : List Char, listLe a b = true ∨ listLe b a = true := by
  intro a
  induction a with
  | nil => intro b; left; rfl
  | cons x xs ih =>
    intro b
    cases b with
    | nil => right; rfl
    | cons y ys =>
      simp only [listLe]
      rcases Nat.lt_trichotomy x.toNat y.toNat with h | h | h
      · left; simp [h]
      · have h1 : ¬ x.toNat < y.toNat := by omega
        have h2 : ¬ y.toNat < x.toNat := by omega
        rcases ih ys with hc | hc <;> [left; right] <;> simp [h1, h2, hc]
      · right; simp [h]

theorem listLe_trans : ∀ a b c : List Char,
    listLe a b = true → listLe b c = true → listLe a c = true := by
  intro a
  induction a with
  | nil => intro b c _ _; rfl
  | cons x xs ih =>
    intro b c hab hbc
    cases b with
    | nil => simp [listLe] at hab
    | cons y ys =>
      cases c with
      | nil => simp [listLe] at hbc
      | cons z zs =>
        simp only [listLe] at hab hbc ⊢
        split_ifs at hab hbc ⊢ <;>
          first
            | rfl
            | omega
            | exact ih ys zs hab hbc

instance : IsTotal String (fun a b => strLe a b = true) :=
  ⟨fun a b => listLe_total a.data b.data⟩

instance : IsTrans String (fun a b => strLe a b = true) :=
  ⟨fun a b c => listLe_trans a.data b.data c.data⟩

theorem catLists_append (a b : List (List String)) :
    catLists (a ++ b) = catLists a ++ catLists b := by
  induction a with
  | nil => rfl
  | cons x xs ih => simp [catLists, ih, List.append_assoc]

theorem discoverFiles_append (fs : FS) (a b : List String) :
    discoverFiles fs (a ++ b) = discoverFiles fs a ++ discoverFiles fs b := by
  simp [discoverFiles, List.map_append, catLists_append]

theorem discoverWarnings_append (fs : FS) (a b : List String) :
    discoverWarnings fs (a ++ b) = discoverWarnings fs a ++ discoverWarnings fs b := by
  simp [discoverWarnings, List.map_append, catLists_append]

theorem takeWhile_all {α : Type} (p : α → Bool) (w t : List α)
    (hw : ∀ c ∈ w, p c = true) :
    List.takeWhile p (w ++ t) = w ++ List.takeWhile p t := by
  induction w with
  | nil => rfl
  | cons c cs ih =>
    have hc : p c = true := hw c (by simp)
    simp only [List.cons_append, List.takeWhile_cons, hc, if_true]
    rw [ih (fun d hd => hw d (by simp [hd]))]

theorem dropWhile_all {α : Type} (p : α → Bool) (w t : List α)
    (hw : ∀ c ∈ w, p c = true) :
    List.dropWhile p (w ++ t) = List.dropWhile p t := by
  induction w with
  | nil => rfl
  | cons c cs ih =>
    have hc : p c = true := hw c (by simp)
    simp only [List.cons_append, List.dropWhile_cons, hc, if_true]
    exact ih (fun d hd => hw d (by simp [hd]))

theorem splitWSF_fuel : ∀ (n m : Nat) (l : List Char),
    l.length ≤ n → l.length ≤ m → splitWSF n l = splitWSF m l := by
  intro n
  induction n with
  | zero =>
    intro m l h1 _
    have : l = [] := List.eq_nil_of_length_eq_zero (Nat.le_zero.mp h1)
    subst this
    cases m <;> rfl
  | succ n ih =>
    intro m l h1 h2
    cases l with
    | nil => cases m <;> rfl
    | cons c cs =>
      cases m with
      | zero => simp at h2
      | succ m =>
        simp only [List.length_cons] at h1 h2
        simp only [splitWSF]
        by_cases hc : isPyWS c = true
        · rw [hc]
          simp only [if_true]
          exact ih m cs (by omega) (by omega)
        · rw [Bool.of_not_eq_true hc]
          simp only [Bool.false_eq_true, if_false]
          have hd := (List.dropWhile_sublist (p := fun d => !isPyWS d) (l := cs)).length_le
          rw [ih m (cs.dropWhile (fun d => !isPyWS d)) (by omega) (by omega)]

theorem splitWS_ws (c : Char) (r : List Char) (h : isPyWS c = true) :
    splitWS (c :: r) = splitWS r := by
  simp only [splitWS, List.length_cons, splitWSF, h, if_true]

theorem splitWS_step (c : Char) (cs : List Char) (h : isPyWS c = false) :
    splitWS (c :: cs) =
      (c :: cs.takeWhile (fun d => !isPyWS d)) ::
        splitWS (cs.dropWhile (fun d => !isPyWS d)) := by
  simp only [splitWS, List.length_cons, splitWSF, h, Bool.false_eq_true, if_false]
  have hd := (List.dropWhile_sublist (p := fun d => !isPyWS d) (l := cs)).length_le
  rw [splitWSF_fuel cs.length (cs.dropWhile (fun d => !isPyWS d)).length
    (cs.dropWhile (fun d => !isPyWS d)) (by omega) (by omega)]

theorem splitWS_word_space (w r : List Char) (hne : w ≠ [])
    (hw : ∀ c ∈ w, isPyWS c = false) :
    splitWS (w ++ ' ' :: r) = w :: splitWS r := by
  cases w with
  | nil => exact absurd rfl hne
  | cons c cs =>
    have hc : isPyWS c = false := hw c (by simp)
    have hcs : ∀ d ∈ cs, (fun d => !isPyWS d) d = true := by
      intro d hd
      simp [hw d (by simp [hd])]
    rw [List.cons_append, splitWS_step c (cs ++ ' ' :: r) hc]
    rw [takeWhile_all _ cs (' ' :: r) hcs, dropWhile_all _ cs (' ' :: r) hcs]
    have hsp : (fun d => !isPyWS d) ' ' = false := by decide
    simp only [List.takeWhile_cons, List.dropWhile_cons, hsp, Bool.false_eq_true,
      if_false, List.append_nil]
    rw [splitWS_ws ' ' r (by decide)]

theorem splitWS_word (w : List Char) (hne : w ≠ [])
    (hw : ∀ c ∈ w, isPyWS c = false) :
    splitWS w = [w] := by
  cases w with
  | nil => exact absurd rfl hne
  | cons c cs =>
    have hc : isPyWS c = false := hw c (by simp)
    have hcs : ∀ d ∈ cs, (fun d => !isPyWS d) d = true := by
      intro d hd
      simp [hw d (by simp [hd])]
    rw [splitWS_step c cs hc]
    have ht : cs.takeWhile (fun d => !isPyWS d) = cs := List.takeWhile_eq_self_iff.mpr hcs
    have hd : cs.dropWhile (fun d => !isPyWS d) = [] := List.dropWhile_eq_nil_iff.mpr hcs
    rw [ht, hd]
    rfl

theorem splitWS_join (ws : List (List Char))
    (h : ∀ w ∈ ws, w ≠ [] ∧ ∀ c ∈ w, isPyWS c = false) :
    splitWS (joinChars ws) = ws := by
  induction ws with
  | nil => rfl
  | cons w tl ih =>
    cases tl with
    | nil => exact splitWS_word w (h w (by simp)).1 (h w (by simp)).2
    | cons w2 rest =>
      show splitWS (w ++ ' ' :: joinChars (w2 :: rest)) = _
      rw [splitWS_word_space w _ (h w (by simp)).1 (h w (by simp)).2]
      rw [ih (fun v hv => h v (by simp [hv]))]

theorem splitWSF_sound : ∀ (n : Nat) (l : List Char), ∀ w ∈ splitWSF n l,
    w ≠ [] ∧ ∀ c ∈ w, isPyWS c = false := by
  intro n
  induction n with
  | zero => intro l w hw; simp [splitWSF] at hw
  | succ n ih =>
    intro l w hw
    cases l with
    | nil => simp [splitWSF] at hw
    | cons c cs =>
      simp only [splitWSF] at hw
      by_cases hc : isPyWS c = true
      · rw [if_pos hc] at hw
        exact ih cs w hw
      · rw [if_neg hc] at hw
        rcases List.mem_cons.mp hw with h | h
        · subst h
          refine ⟨by simp, ?_⟩
          intro d hd
          rcases List.mem_cons.mp hd with h | h
          · subst h; exact Bool.of_not_eq_true hc
          · have := List.mem_takeWhile_imp h
            simpa using this
        · exact ih _ w h

theorem splitWS_sound (l : List Char) : ∀ w ∈ splitWS l,
    w ≠ [] ∧ ∀ c ∈ w, isPyWS c = false :=
  splitWSF_sound l.length l

theorem data_append (s t : String) : (s ++ t).data = s.data ++ t.data := rfl

theorem pyJoin_data : ∀ l : List String, (pyJoin l).data = joinChars (l.map String.data)
  | [] => rfl
  | [_] => rfl
  | x :: y :: rest => by
    show (x ++ " " ++ pyJoin (y :: rest)).data
        = x.data ++ ' ' :: joinChars ((y :: rest).map String.data)
    rw [data_append, data_append, pyJoin_data (y :: rest)]
    simp [List.append_assoc]

theorem buildArgv_clean (resolved : List String)
    (h : ∀ f ∈ resolved, f ≠ "" ∧ ∀ c ∈ f.data, isPyWS c = false) :
    buildArgv resolved = "clang-format" :: "-i" :: "--verbose" :: resolved := by
  have hwords : ∀ w ∈ resolved.map String.data, w ≠ [] ∧ ∀ c ∈ w, isPyWS c = false := by
    intro w hw
    rcases List.mem_map.mp hw with ⟨f, hf, rfl⟩
    refine ⟨?_, (h f hf).2⟩
    intro hnil
    apply (h f hf).1
    cases f with
    | mk d => cases hnil; rfl
  unfold buildArgv pySplit
  rw [data_append, pyJoin_data]
  have hshape : ("clang-format -i --verbose ").data ++ joinChars (resolved.map String.data)
      = "clang-format".data ++ ' ' ::
          ("-i".data ++ ' ' :: ("--verbose".data ++ ' ' :: joinChars (resolved.map String.data))) := by
    have e : ("clang-format -i --verbose ").data
        = "clang-format".data ++ ' ' :: ("-i".data ++ ' ' :: ("--verbose".data ++ [' '])) := by
      decide
    rw [e]
    simp [List.append_assoc]
  rw [hshape]
  rw [splitWS_word_space ("clang-format".data) _ (by decide) (by decide)]
  rw [splitWS_word_space ("-i".data) _ (by decide) (by decide)]
  rw [splitWS_word_space ("--verbose".data) _ (by decide) (by decide)]
  rw [splitWS_join _ hwords]
  simp only [List.map_cons, List.map_map]
  have hid : (String.mk ∘ String.data) = id := funext (fun _ => rfl)
  rw [hid, List.map_id]

theorem filter_or_perm {α : Type} (p q : α → Bool) (l : List α)
    (hpq : ∀ a, p a = true → q a = false) :
    List.Perm (l.filter p ++ l.filter q) (l.filter (fun x => p x || q x)) := by
  induction l with
  | nil => simp
  | cons x xs ih =>
    by_cases hp : p x = true
    · have hq : q x = false := hpq x hp
      simp only [List.filter_cons, hp, hq, Bool.true_or, if_true, List.cons_append]
      exact ih.cons x
    · have hp2 : p x = false := Bool.of_not_eq_true hp
      by_cases hq : q x = true
      · simp only [List.filter_cons, hp2, hq, Bool.false_or, Bool.false_eq_true, if_false,
          if_true]
        exact List.perm_middle.trans (ih.cons x)
      · have hq2 : q x = false := Bool.of_not_eq_true hq
        simpa [List.filter_cons, hp2, hq2] using ih

theorem strEndsWith_c_not_h (x : String) (h : strEndsWith x ".c" = true) :
    strEndsWith x ".h" = false := by
  unfold strEndsWith at h ⊢
  simp only [show (".c" : String).data = ['.', 'c'] from rfl,
    show (".h" : String).data = ['.', 'h'] from rfl,
    List.length_cons, List.length_nil] at h ⊢
  split_ifs at h ⊢ with hl
  · simp only [decide_eq_true_eq] at h
    simp only [decide_eq_false_iff_not]
    intro hcontra
    rw [h] at hcontra
    exact absurd hcontra (by decide)

theorem mem_globSorted (fs : FS) (d ext x : String) :
    x ∈ globSorted fs d ext ↔ x ∈ fs.entriesUnder d ∧ strEndsWith x ext = true := by
  unfold globSorted sortStr
  rw [List.mem_insertionSort]
  simp [List.mem_filter]

/-! ### The claims -/

/-- Claim C1 (amended): if the version query exits with a non-zero status,
the run prints the CalledProcessError text (naming the command and exit
status) and returns -1, with no discovery warnings printed and no formatter
invocation; if the version query cannot be started, the OSError is caught
by nothing and propagates, again with no formatter invocation. -/
theorem c1_version_failure_handling (env : Env) :
    (∀ code out err, env.versionResult = ProcResult.exited code out err → code ≠ 0 →
        main env = ⟨[cpErrorStr VERSION_CMD code], RunOutcome.exit (-1), none⟩)
    ∧ (∀ m, env.versionResult = ProcResult.startFailure m →
        main env = ⟨[], RunOutcome.uncaughtError m, none⟩) := by
  constructor
  · intro code out err hv hc
    simp [main, hv, hc]
  · intro m hv
    simp [main, hv]

/-- Claim C1, counterexample to the claim as stated: when the version-query
process cannot be started the run does not terminate with exit status -1
(the exception propagates instead), and when it exits non-zero the printed
line is not the captured stderr text. -/
theorem c1_counterexample :
    (main envStart).outcome ≠ RunOutcome.exit (-1)
    ∧ (main envVFail).output ≠ ["boom"] := by
  constructor
  · decide
  · decide

/-- Claim C1, witness: the amended theorem applied to the concrete run
whose version query exits 1. -/
theorem c1_witness :
    envVFail.versionResult = ProcResult.exited 1 "" "boom"
    ∧ main envVFail = ⟨[cpErrorStr VERSION_CMD 1], RunOutcome.exit (-1), none⟩ :=
  ⟨rfl, (c1_version_failure_handling envVFail).1 1 "" "boom" rfl (by decide)⟩

/-- Claim C2 (code bug): the dots in CLANG_FORMAT_VER_REGEX are unescaped,
so the version-query output "clang-format version 14a0b0", which is not of
the form "clang-format version" followed by three dot-separated integers,
is nevertheless parsed successfully as Version(14, 0, 0), and the run
proceeds to the formatter invocation instead of failing the assert. -/
theorem c2_regex_dot_unescaped :
    parseVer "clang-format version 14a0b0" = some ⟨14, 0, 0⟩
    ∧ (main envC2).outcome = RunOutcome.exit 0
    ∧ (main envC2).formatCalled = some ["clang-format", "-i", "--verbose"] := by
  refine ⟨by decide, by decide, by decide⟩

/-- Claim C3: for a directory argument, discovery appends exactly the
entries beneath it ending in ".c" or ".h" — the ".c" group first, sorted,
then the ".h" group, sorted — between the contributions of the surrounding
arguments. -/
theorem c3_dir_discovery (fs : FS) (d : String) (pre post : List String)
    (hk : fs.kind d = PathKind.dir) :
    discoverFiles fs (pre ++ d :: post)
        = discoverFiles fs pre ++ (globSorted fs d ".c" ++ globSorted fs d ".h")
            ++ discoverFiles fs post
    ∧ List.Perm (globSorted fs d ".c" ++ globSorted fs d ".h")
        ((fs.entriesUnder d).filter
          (fun q => strEndsWith q ".c" || strEndsWith q ".h"))
    ∧ List.Sorted (fun a b : String => strLe a b = true) (globSorted fs d ".c")
    ∧ List.Sorted (fun a b : String => strLe a b = true) (globSorted fs d ".h")
    ∧ (∀ x ∈ globSorted fs d ".c", strEndsWith x ".c" = true)
    ∧ (∀ x ∈ globSorted fs d ".h", strEndsWith x ".h" = true) := by
  refine ⟨?_, ?_, ?_, ?_, ?_, ?_⟩
  · have h1 : pre ++ d :: post = pre ++ [d] ++ post := by simp
    rw [h1, discoverFiles_append, discoverFiles_append]
    have h2 : discoverFiles fs [d] = globSorted fs d ".c" ++ globSorted fs d ".h" := by
      simp [discoverFiles, catLists, contribution, hk]
    rw [h2]
  · have hC : List.Perm (globSorted fs d ".c")
        ((fs.entriesUnder d).filter (fun q => strEndsWith q ".c")) :=
      List.perm_insertionSort _ _
    have hH : List.Perm (globSorted fs d ".h")
        ((fs.entriesUnder d).filter (fun q => strEndsWith q ".h")) :=
      List.perm_insertionSort _ _
    exact (hC.append hH).trans
      (filter_or_perm _ _ _ (fun a => strEndsWith_c_not_h a))
  · exact List.sorted_insertionSort _ _
  · exact List.sorted_insertionSort _ _
  · intro x hx
    exact ((mem_globSorted fs d ".c" x).mp hx).2
  · intro x hx
    exact ((mem_globSorted fs d ".h" x).mp hx).2

/-- Claim C3, witness: on the directory holding b.h, a.c, c.txt, discovery
returns [a.c, b.h]. -/
theorem c3_witness :
    fsABC.kind "dir" = PathKind.dir
    ∧ discoverFiles fsABC ["dir"] = ["dir/a.c", "dir/b.h"] := by
  constructor
  · rfl
  · have h := (c3_dir_discovery fsABC "dir" [] [] rfl).1
    exact h.trans (by decide)

/-- Claim C4: the comparison generated for the Version dataclass agrees
with lexicographic order on the (major, minor, patch) triples. -/
theorem c4_version_lt_lex (v w : Version) :
    Version.lt v w = true ↔
      Prod.Lex (fun a b : Nat => a < b)
        (Prod.Lex (fun a b : Nat => a < b) (fun a b : Nat => a < b))
        (v.major, (v.minor, v.patch)) (w.major, (w.minor, w.patch)) := by
  simp only [Version.lt, Prod.lex_def, decide_eq_true_eq]
  split_ifs with h1 h2 <;> constructor <;> intro h <;> first | omega | simp_all

/-- Claim C5: a parsed version strictly below 13.0.1 makes the run print
the two error lines naming both versions and return -1 with no discovery
output and no formatter invocation. -/
theorem c5_too_old_rejected (env : Env) (out err : String) (v : Version)
    (hv : env.versionResult = ProcResult.exited 0 out err)
    (hp : parseVer out = some v)
    (hlt : Version.lt v CLANG_FORMAT_VER_REQ = true) :
    main env = ⟨[tooOld1, tooOld2 v], RunOutcome.exit (-1), none⟩
    ∧ ∃ a b : String,
        tooOld2 v = a ++ verStr CLANG_FORMAT_VER_REQ ++ b ++ verStr v := by
  constructor
  · simp [main, hv, hp, hlt]
  · exact ⟨"       Requires version ", " but is ", rfl⟩

/-- Claim C5, witness: version 12.9.9 is rejected. -/
theorem c5_witness :
    parseVer "clang-format version 12.9.9" = some ⟨12, 9, 9⟩
    ∧ main envOld = ⟨[tooOld1, tooOld2 ⟨12, 9, 9⟩], RunOutcome.exit (-1), none⟩ :=
  ⟨by decide,
   (c5_too_old_rejected envOld "clang-format version 12.9.9" "" ⟨12, 9, 9⟩ rfl
      (by decide) (by decide)).1⟩

/-- Claim C6: for an accepted version, the newer-than-tested note appears
in the output exactly when the parsed major exceeds 13, immediately after
the acceptance line, and the run still reaches the formatter invocation. -/
theorem c6_newer_warning (env : Env) (out err : String) (v : Version)
    (hv : env.versionResult = ProcResult.exited 0 out err)
    (hp : parseVer out = some v)
    (hlt : Version.lt v CLANG_FORMAT_VER_REQ = false) :
    (∃ rest, (main env).output
        = usingLine v ::
            ((if CLANG_FORMAT_VER_REQ.major < v.major then [noteLine] else []) ++ rest))
    ∧ (main env).formatCalled
        = some (buildArgv ((discoverFiles env.fs env.args).map env.fs.resolve)) := by
  rcases hf : env.formatResult (buildArgv ((discoverFiles env.fs env.args).map env.fs.resolve))
    with m | ⟨fcode, fout, ferr⟩
  · exact ⟨⟨discoverWarnings env.fs env.args, by simp [main, hv, hp, hlt, hf]⟩,
      by simp [main, hv, hp, hlt, hf]⟩
  · by_cases hfc : fcode = 0
    · subst hfc
      exact ⟨⟨discoverWarnings env.fs env.args
            ++ (if fout ≠ "" then [rstrip fout] else [])
            ++ (if ferr ≠ "" then [rstrip ferr] else []),
          by simp [main, hv, hp, hlt, hf]⟩,
        by simp [main, hv, hp, hlt, hf]⟩
    · exact ⟨⟨discoverWarnings env.fs env.args ++ [ferr],
          by simp [main, hv, hp, hlt, hf, hfc]⟩,
        by simp [main, hv, hp, hlt, hf, hfc]⟩

/-- Claim C6, witness: version 14.0.0 is accepted with the note emitted and
the formatter invoked. -/
theorem c6_witness :
    parseVer "clang-format version 14.0.0" = some ⟨14, 0, 0⟩
    ∧ ((∃ rest, (main env14).output
          = usingLine ⟨14, 0, 0⟩ ::
              ((if CLANG_FORMAT_VER_REQ.major < (Version.mk 14 0 0).major
                  then [noteLine] else []) ++ rest))
        ∧ (main env14).formatCalled
            = some (buildArgv ((discoverFiles env14.fs env14.args).map env14.fs.resolve))) :=
  ⟨by decide,
   c6_newer_warning env14 "clang-format version 14.0.0" "" ⟨14, 0, 0⟩ rfl
     (by decide) (by decide)⟩

/-- Claim C7: an argument that is missing, or neither file nor directory,
yields exactly one warning naming it, contributes no files, and leaves the
surrounding arguments processed exactly as before. -/
theorem c7_invalid_path_skipped (fs : FS) (p : String) (pre post : List String)
    (hk : fs.kind p = PathKind.missing ∨ fs.kind p = PathKind.other) :
    discoverWarnings fs (pre ++ p :: post)
        = discoverWarnings fs pre ++ warnLine p :: discoverWarnings fs post
    ∧ discoverFiles fs (pre ++ p :: post)
        = discoverFiles fs pre ++ discoverFiles fs post
    ∧ ∃ a b : String, warnLine p = a ++ p ++ b := by
  have hw : pathWarnings fs p = [warnLine p] := by
    rcases hk with h | h <;> simp [pathWarnings, h]
  have hc : contribution fs p = [] := by
    rcases hk with h | h <;> simp [contribution, h]
  refine ⟨?_, ?_, ⟨"WARN: ", " doesn\x27t exist or is not file or dir, ignoring", rfl⟩⟩
  · have h1 : pre ++ p :: post = pre ++ [p] ++ post := by simp
    rw [h1, discoverWarnings_append, discoverWarnings_append]
    simp [discoverWarnings, catLists, hw]
  · have h1 : pre ++ p :: post = pre ++ [p] ++ post := by simp
    rw [h1, discoverFiles_append, discoverFiles_append]
    simp [discoverFiles, catLists, hc]

/-- Claim C7, witness: the missing path "nope" is warned about and skipped
while the following file argument is still processed. -/
theorem c7_witness :
    (fsFile.kind "nope" = PathKind.missing ∨ fsFile.kind "nope" = PathKind.other)
    ∧ (discoverWarnings fsFile ([] ++ "nope" :: ["weird.txt"])
          = discoverWarnings fsFile []
              ++ warnLine "nope" :: discoverWarnings fsFile ["weird.txt"]
        ∧ discoverFiles fsFile ([] ++ "nope" :: ["weird.txt"])
          = discoverFiles fsFile [] ++ discoverFiles fsFile ["weird.txt"]
        ∧ ∃ a b : String, warnLine "nope" = a ++ "nope" ++ b) :=
  ⟨Or.inl rfl, c7_invalid_path_skipped fsFile "nope" [] ["weird.txt"] (Or.inl rfl)⟩

/-- Claim C8: an argument that is an existing regular file is appended to
the discovered set unchanged, with no extension filtering. -/
theorem c8_file_arg_verbatim (fs : FS) (p : String) (pre post : List String)
    (hk : fs.kind p = PathKind.file) :
    contribution fs p = [p]
    ∧ discoverFiles fs (pre ++ p :: post)
        = discoverFiles fs pre ++ p :: discoverFiles fs post := by
  have hc : contribution fs p = [p] := by simp [contribution, hk]
  refine ⟨hc, ?_⟩
  have h1 : pre ++ p :: post = pre ++ [p] ++ post := by simp
  rw [h1, discoverFiles_append, discoverFiles_append]
  simp [discoverFiles, catLists, hc]

/-- Claim C8, witness: the direct file argument weird.txt is included
verbatim. -/
theorem c8_witness :
    fsFile.kind "weird.txt" = PathKind.file
    ∧ (contribution fsFile "weird.txt" = ["weird.txt"]
        ∧ discoverFiles fsFile ([] ++ "weird.txt" :: [])
            = discoverFiles fsFile [] ++ "weird.txt" :: discoverFiles fsFile []) :=
  ⟨rfl, c8_file_arg_verbatim fsFile "weird.txt" [] [] rfl⟩

/-- Claim C9: if the formatter invocation exits non-zero the captured
stderr text is printed last and the run returns -1; if it exits zero, the
captured stdout and stderr are printed right-stripped (when non-empty) and
the run returns 0. -/
theorem c9_format_result_handling (env : Env) (out err : String) (v : Version)
    (hv : env.versionResult = ProcResult.exited 0 out err)
    (hp : parseVer out = some v)
    (hlt : Version.lt v CLANG_FORMAT_VER_REQ = false) :
    (∀ fcode fout ferr,
        env.formatResult (buildArgv ((discoverFiles env.fs env.args).map env.fs.resolve))
            = ProcResult.exited fcode fout ferr →
        fcode ≠ 0 →
        (main env).outcome = RunOutcome.exit (-1)
          ∧ ∃ pre, (main env).output = pre ++ [ferr])
    ∧ (∀ fout ferr,
        env.formatResult (buildArgv ((discoverFiles env.fs env.args).map env.fs.resolve))
            = ProcResult.exited 0 fout ferr →
        (main env).outcome = RunOutcome.exit 0
          ∧ ∃ pre, (main env).output
              = pre ++ (if fout ≠ "" then [rstrip fout] else [])
                  ++ (if ferr ≠ "" then [rstrip ferr] else [])) := by
  constructor
  · intro fcode fout ferr hf hfc
    refine ⟨by simp [main, hv, hp, hlt, hf, hfc], ?_⟩
    exact ⟨(usingLine v ::
        (if CLANG_FORMAT_VER_REQ.major < v.major then [noteLine] else []))
          ++ discoverWarnings env.fs env.args,
      by simp [main, hv, hp, hlt, hf, hfc]⟩
  · intro fout ferr hf
    refine ⟨by simp [main, hv, hp, hlt, hf], ?_⟩
    exact ⟨(usingLine v ::
        (if CLANG_FORMAT_VER_REQ.major < v.major then [noteLine] else []))
          ++ discoverWarnings env.fs env.args,
      by simp [main, hv, hp, hlt, hf]⟩

/-- Claim C9, witness: a formatter invocation exiting 1 with stderr
"fmt boom" makes the run print that text and return -1. -/
theorem c9_witness :
    parseVer "clang-format version 13.0.1" = some ⟨13, 0, 1⟩
    ∧ ((main envFmtFail).outcome = RunOutcome.exit (-1)
        ∧ ∃ pre, (main envFmtFail).output = pre ++ ["fmt boom"]) :=
  ⟨by decide,
   (c9_format_result_handling envFmtFail "clang-format version 13.0.1" "" ⟨13, 0, 1⟩ rfl
      (by decide) (by decide)).1 1 "" "fmt boom" rfl (by decide)⟩

/-- Claim C10: the formatter argument vector is the whitespace re-split of
the space-joined command string; when every resolved path is non-empty and
whitespace-free it equals the three fixed words followed by the paths in
order, every element of the vector is whitespace-free, and a path that
contains whitespace never survives as a single argument. -/
theorem c10_argv_join_split (resolved : List String) :
    ((∀ f ∈ resolved, f ≠ "" ∧ ∀ c ∈ f.data, isPyWS c = false) →
        buildArgv resolved = "clang-format" :: "-i" :: "--verbose" :: resolved)
    ∧ (∀ a ∈ buildArgv resolved, a ≠ "" ∧ ∀ c ∈ a.data, isPyWS c = false)
    ∧ (∀ f ∈ resolved, (∃ c ∈ f.data, isPyWS c = true) → f ∉ buildArgv resolved) := by
  have h2 : ∀ a ∈ buildArgv resolved, a ≠ "" ∧ ∀ c ∈ a.data, isPyWS c = false := by
    intro a ha
    unfold buildArgv pySplit at ha
    rcases List.mem_map.mp ha with ⟨w, hw, rfl⟩
    have hs := splitWS_sound _ w hw
    refine ⟨?_, hs.2⟩
    intro hnil
    exact hs.1 (congrArg String.data hnil)
  refine ⟨buildArgv_clean resolved, h2, ?_⟩
  intro f _ hws hmem
  rcases hws with ⟨c, hc, hcw⟩
  rw [(h2 f hmem).2 c hc] at hcw
  simp at hcw

/-- Claim C10, witness: a clean path is passed through as the fourth
argument, and a path with a space is not passed as one argument. -/
theorem c10_witness :
    buildArgv ["/tmp/a.c"] = ["clang-format", "-i", "--verbose", "/tmp/a.c"]
    ∧ "/tmp/a b.c" ∉ buildArgv ["/tmp/a b.c"] :=
  ⟨(c10_argv_join_split ["/tmp/a.c"]).1 (by decide),
   (c10_argv_join_split ["/tmp/a b.c"]).2.2 "/tmp/a b.c" (by decide) (by decide)⟩

end ClangFmt
